import Mathlib

/-!
# Kaizen: ranked-list fetch orchestration and detail-overlay controller

A shallow embedding of the client-side logic of the Kaizen front end
(`src/app/components/anidisplay.jsx`, `src/app/components/animeslider.jsx`,
`src/app/manga/mangadisplay.jsx`) together with the properties its
specification states about it.

Conventions of the embedding:

* JavaScript numbers that hold pixel coordinates are rationals (`ℚ`): the
  placement code divides by two, so integers would not be faithful.
* Millisecond delays and counters are natural numbers.
* React state is an explicit record; an event handler is a function from the
  record to the record.  The browser's timer queue, `localStorage` and the
  network are explicit components of the state or explicit arguments.
-/

namespace Kaizen

/-! ## Overlay placement (`handleClick` of `anidisplay.jsx`) -/

/-- The part of a `DOMRect` that `handleClick` reads from
`event.currentTarget.getBoundingClientRect()`. -/
structure Rect where
  top : ℚ
  left : ℚ
  width : ℚ
  deriving DecidableEq, Repr

/-- The object stored by `setTooltipPosition`. -/
structure Position where
  top : ℚ
  left : ℚ
  deriving DecidableEq, Repr

/-- The test `rect.left + rect.width > window.innerWidth - 350` of `handleClick`. -/
def isLastColumn (rect : Rect) (innerWidth : ℚ) : Bool :=
  decide (rect.left + rect.width > innerWidth - 350)

/-- The position computed by `handleClick` (the argument of `setTooltipPosition`),
branch for branch as in the source. -/
def tooltipPlacement (rect : Rect) (innerWidth : ℚ) : Position :=
  if innerWidth ≤ 768 then
    { top := rect.top, left := innerWidth / 2 - 100 }
  else if isLastColumn rect innerWidth then
    { top := rect.top, left := rect.left - 320 }
  else
    { top := rect.top, left := rect.left + rect.width + 10 }

/-- The placement rule as the specification words it: three ordered rules, the
second one phrased through the distance between the trigger's right edge and the
viewport's right edge ("within 350px" read as a distance below 350). -/
def specPlacement (top left width W : ℚ) : Position :=
  if W ≤ 768 then ⟨top, W / 2 - 100⟩
  else if W - (left + width) < 350 then ⟨top, left - 320⟩
  else ⟨top, left + width + 10⟩

/-! ## Overlay show/hide controller (`anidisplay.jsx`)

The tooltip state of the component together with the browser's queue of pending
timeouts.  Every timeout the component creates has the same callback,
`setActiveTooltip(null)`, so a pending timeout is its handle and its due time. -/

/-- A pending `setTimeout` of the component: its handle and the instant it is due. -/
structure Timer where
  id : Nat
  fireAt : Nat
  deriving DecidableEq, Repr

/-- Tooltip state: the React state variables `activeTooltip`, `tooltipPosition`, the
ref `tooltipTimeout.current`, and the browser side (pending timeouts, the next fresh
handle, the clock in milliseconds). -/
structure Overlay (α : Type) where
  activeTooltip : Option α
  tooltipPosition : Option Position
  tooltipTimeout : Option Nat
  timers : List Timer
  nextId : Nat
  now : Nat
  deriving DecidableEq, Repr

/-- The browser's `clearTimeout(handle)`: removes the pending timeout with that handle,
does nothing for `null` or for a handle that is not pending. -/
def clearTimeout (handle : Option Nat) (timers : List Timer) : List Timer :=
  timers.filter (fun t => decide (some t.id ≠ handle))

/-- Source `handleMouseLeave`: `tooltipTimeout.current = setTimeout(hide, 300)`.  The
previous content of the ref is overwritten, not cleared. -/
def handleMouseLeave {α : Type} (s : Overlay α) : Overlay α :=
  { s with
    tooltipTimeout := some s.nextId
    timers := s.timers ++ [{ id := s.nextId, fireAt := s.now + 300 }]
    nextId := s.nextId + 1 }

/-- Source `cancelTooltipHide`: `clearTimeout(tooltipTimeout.current)`. -/
def cancelTooltipHide {α : Type} (s : Overlay α) : Overlay α :=
  { s with timers := clearTimeout s.tooltipTimeout s.timers }

/-- Source `handleClick`: clears the timeout held in the ref, sets the active item and
the position computed from the trigger's rectangle and `window.innerWidth`. -/
def handleClick {α : Type} (rect : Rect) (innerWidth : ℚ) (anime : α) (s : Overlay α) :
    Overlay α :=
  { s with
    timers := clearTimeout s.tooltipTimeout s.timers
    activeTooltip := some anime
    tooltipPosition := some (tooltipPlacement rect innerWidth) }

/-- Passage of `dt` milliseconds with no pointer event: every pending timeout that is
due by then runs its callback `setActiveTooltip(null)` and leaves the queue. -/
def elapse {α : Type} (dt : Nat) (s : Overlay α) : Overlay α :=
  { s with
    now := s.now + dt
    activeTooltip :=
      if s.timers.any (fun t => decide (t.fireAt ≤ s.now + dt)) then none else s.activeTooltip
    timers := s.timers.filter (fun t => decide (s.now + dt < t.fireAt)) }

/-- Whether `renderTooltip` renders the overlay: it returns `null` exactly when
`activeTooltip` or `tooltipPosition` is unset. -/
def isVisible {α : Type} (s : Overlay α) : Bool :=
  s.activeTooltip.isSome && s.tooltipPosition.isSome

/-! ## Collaborators of the fetch code: network, JSON, `localStorage` -/

/-- What a `catch` of the fetch code can receive. -/
inductive FetchError where
  | networkError
  | syntaxError
  | typeError
  | dataNotFound
  | unexpectedFormat
  | quotaExceeded
  deriving DecidableEq, Repr

/-- The outcomes of `fetch(url)` followed by `response.json()` that the list requests
distinguish: the request rejects, the body is not JSON, the body has no usable `data`
field, or `data` is an array. -/
inductive Response (α : Type) where
  | rejected
  | notJson
  | noData
  | data (xs : List α)
  deriving DecidableEq, Repr

/-- A value produced by `JSON.parse`: an array of items, or some JSON value that is not
an array. -/
inductive JsonValue (α : Type) where
  | arr (xs : List α)
  | nonArray
  deriving DecidableEq, Repr

/-- The platform functions `JSON.stringify` (on item lists) and `JSON.parse`; `parse`
answers `none` where `JSON.parse` throws a `SyntaxError`. -/
structure JsonCodec (α : Type) where
  stringify : List α → String
  parse : String → Option (JsonValue α)

/-- The origin's `localStorage`: its entries, newest first, and whether `setItem`
currently throws for lack of quota. -/
structure LocalStorage where
  items : List (String × String)
  quotaExceeded : Bool
  deriving DecidableEq, Repr

/-- The call `localStorage.getItem(key)`; `none` is JavaScript's `null`. -/
def getItem (store : LocalStorage) (key : String) : Option String :=
  store.items.lookup key

/-- The call `localStorage.setItem(key, value)`; `none` when it throws. -/
def setItem (store : LocalStorage) (key value : String) : Option LocalStorage :=
  if store.quotaExceeded then none
  else some { store with items := (key, value) :: store.items.filter (fun kv => kv.1 ≠ key) }

/-- The season names indexed by `Math.floor(month / 3)`. -/
def seasons : List String := ["winter", "spring", "summer", "fall"]

/-- The expression `["winter", "spring", "summer", "fall"][Math.floor(month / 3)]`;
an index out of range reads `undefined`. -/
def currentSeason (month : Nat) : String :=
  (seasons[month / 3]?).getD "undefined"

/-- The template string built from `currentYear` and `currentSeason` that names the
cache slot of the seasonal list. -/
def cacheKey (year month : Nat) : String :=
  "animeData-" ++ toString year ++ "-" ++ currentSeason month

/-! ## Seasonal anime grid: the mount effect of `Anidisplay` -/

/-- React state of `Anidisplay` that the mount effect writes. -/
structure AniState (α : Type) where
  topAnime : JsonValue α
  loading : Bool
  error : Option FetchError
  deriving DecidableEq, Repr

/-- State of `Anidisplay` before the mount effect: `useState([])`, `useState(true)`,
`useState(null)`. -/
def AniState.initial {α : Type} : AniState α :=
  { topAnime := .arr [], loading := true, error := none }

/-- What one run of the mount effect leaves behind: the React state, `localStorage`,
and how many network requests it issued. -/
structure AniOutcome (α : Type) where
  state : AniState α
  store : LocalStorage
  fetches : Nat
  deriving DecidableEq, Repr

/-- The `else` branch of the mount effect: the request, then
`setTopAnime(data.data.slice(0, 24))`, `localStorage.setItem(...)`,
`setLoading(false)`; every failure on the way lands in the `.catch`. -/
def anidisplayFetch {α : Type} (codec : JsonCodec α) (key : String) (store : LocalStorage)
    (net : Response α) (s : AniState α) : AniOutcome α :=
  match net with
  | .data xs =>
    let s1 := { s with topAnime := .arr (xs.take 24) }
    match setItem store key (codec.stringify (xs.take 24)) with
    | some store1 => { state := { s1 with loading := false }, store := store1, fetches := 1 }
    | none =>
      { state := { s1 with error := some .quotaExceeded, loading := false },
        store := store, fetches := 1 }
  | .rejected =>
    { state := { s with error := some .networkError, loading := false },
      store := store, fetches := 1 }
  | .notJson =>
    { state := { s with error := some .syntaxError, loading := false },
      store := store, fetches := 1 }
  | .noData =>
    { state := { s with error := some .typeError, loading := false },
      store := store, fetches := 1 }

/-- The mount effect of `Anidisplay`.  A stored string that is truthy (present and not
empty) goes to `JSON.parse` with no `try` around it: a `SyntaxError` leaves the effect
uncaught (`Except.error`).  Otherwise the network is asked. -/
def anidisplayEffect {α : Type} (codec : JsonCodec α) (year month : Nat)
    (store : LocalStorage) (net : Response α) (s : AniState α) :
    Except FetchError (AniOutcome α) :=
  let key := cacheKey year month
  match getItem store key with
  | some cachedData =>
    if cachedData ≠ "" then
      match codec.parse cachedData with
      | some v =>
        .ok { state := { s with topAnime := v, loading := false }, store := store, fetches := 0 }
      | none => .error .syntaxError
    else .ok (anidisplayFetch codec key store net s)
  | none => .ok (anidisplayFetch codec key store net s)

/-! ## Variant A: the seasonal anime slider (`animeslider.jsx`) -/

/-- React state of `AnimeSlider`. -/
structure SliderState (α : Type) where
  topAnime : List α
  loading : Bool
  error : Option FetchError
  deriving DecidableEq, Repr

/-- State of `AnimeSlider` before the first attempt. -/
def SliderState.initial {α : Type} : SliderState α :=
  { topAnime := [], loading := true, error := none }

/-- The `catch` of `fetchAnimeWithStats`: `setError(error.toString())` and
`setTimeout(fetchAnimeWithStats, 1000)`.  The second component lists the delays of the
timeouts the attempt created. -/
def sliderCatch {α : Type} (e : FetchError) (s : SliderState α) : SliderState α × List Nat :=
  ({ s with error := some e }, [1000])

/-- One call of `fetchAnimeWithStats` against the network answer `net`. -/
def fetchAnimeWithStats {α : Type} (net : Response α) (s : SliderState α) :
    SliderState α × List Nat :=
  let s1 := { s with loading := true }
  match net with
  | .rejected => sliderCatch .networkError s1
  | .notJson => sliderCatch .syntaxError s1
  | .noData => sliderCatch .dataNotFound s1
  | .data xs =>
    if xs.length > 0 then ({ s1 with topAnime := xs, loading := false }, [])
    else sliderCatch .dataNotFound s1

/-- The slider from mount on: the first call and then one call for each timeout that
comes due, the i-th call receiving the i-th network answer.  Returns the state after
the last observed call and the delays of all timeouts created. -/
def runSlider {α : Type} : List (Response α) → SliderState α → SliderState α × List Nat
  | [], s => (s, [])
  | net :: rest, s =>
    let r := fetchAnimeWithStats net s
    match r.2 with
    | [] => (r.1, [])
    | d :: ds =>
      match rest with
      | [] => (r.1, d :: ds)
      | _ :: _ =>
        let out := runSlider rest r.1
        (out.1, d :: ds ++ out.2)

/-- The failing answers of the list request: rejected, not JSON, `data` missing, or an
empty `data` list. -/
def Response.failsOrEmpty {α : Type} : Response α → Bool
  | .data xs => xs.isEmpty
  | _ => true

/-! ## Variant B: the manga grid (`mangadisplay.jsx`) -/

/-- A manga record after enrichment: `{ ...manga, readingCount }`. -/
structure Enriched (α : Type) where
  manga : α
  readingCount : Nat
  deriving DecidableEq, Repr

/-- The outcomes of the per-item statistics request that the code distinguishes. -/
inductive StatsResponse where
  | rejected
  | notJson
  | noData
  | reading (r : Option Nat)
  deriving DecidableEq, Repr

/-- The body of the `try` of the per-item function: the value of
`stats.data.reading || 0`, or the exception raised on the way. -/
def readingOrZero : StatsResponse → Except FetchError Nat
  | .rejected => .error .networkError
  | .notJson => .error .syntaxError
  | .noData => .error .typeError
  | .reading none => .ok 0
  | .reading (some n) => .ok (if n = 0 then 0 else n)

/-- The per-item async function of `fetchMangaStats` on one entry of the base list;
`none` is an entry that is JSON `null`.  For a record, the `try` runs the statistics
request and the `catch` answers every exception with `readingCount: 0`.  For `null`,
building the URL from `manga.mal_id` throws inside the `try`, and the `catch`, which
reads `manga.mal_id` again for `console.error`, throws in turn: the promise rejects. -/
def enrichOne {α : Type} (manga : Option α) (r : StatsResponse) :
    Except FetchError (Enriched α) :=
  match manga with
  | none => .error .typeError
  | some record =>
    match readingOrZero r with
    | .ok n => .ok { manga := record, readingCount := n }
    | .error _ => .ok { manga := record, readingCount := 0 }

/-- The array of promises `mangaList.map(async (manga) => ...)`, already settled; the
call for the item at position `i` receives the answer `stats i`. -/
def enrichFrom {α : Type} (stats : Nat → StatsResponse) :
    Nat → List (Option α) → List (Except FetchError (Enriched α))
  | _, [] => []
  | i, manga :: rest => enrichOne manga (stats i) :: enrichFrom stats (i + 1) rest

/-- The platform function `Promise.all` on settled promises: the list of values, or the
first rejection. -/
def promiseAll {ε β : Type} : List (Except ε β) → Except ε (List β)
  | [] => .ok []
  | .error e :: _ => .error e
  | .ok b :: rest =>
    match promiseAll rest with
    | .ok bs => .ok (b :: bs)
    | .error e => .error e

/-- The comparator `(a, b) => b.readingCount - a.readingCount`. -/
def compareReading {α : Type} (a b : Enriched α) : Int :=
  (b.readingCount : Int) - (a.readingCount : Int)

/-- The platform function `Array.prototype.sort(compare)`, a stable sort: `a` is put
before the first `b` already placed with `compare(a, b) ≤ 0`. -/
def arraySort {β : Type} (compare : β → β → Int) (l : List β) : List β :=
  l.insertionSort (fun a b => compare a b ≤ 0)

/-- Source `fetchMangaStats`: await all per-item calls, then sort by `readingCount`,
descending.  The entries of `mangaList` are records or `null`. -/
def fetchMangaStats {α : Type} (stats : Nat → StatsResponse) (mangaList : List (Option α)) :
    Except FetchError (List (Enriched α)) :=
  match promiseAll (enrichFrom stats 0 mangaList) with
  | .ok updatedMangaList => .ok (arraySort compareReading updatedMangaList)
  | .error e => .error e

/-- React state of `MangaDisplay`. -/
structure MangaState (α : Type) where
  topManga : List (Enriched α)
  loading : Bool
  error : Option FetchError
  retryCount : Nat
  deriving DecidableEq, Repr

/-- State of `MangaDisplay` before the first attempt. -/
def MangaState.initial {α : Type} : MangaState α :=
  { topManga := [], loading := true, error := none, retryCount := 0 }

/-- The values of `topManga` and `retryCount` that a `fetchManga` closure reads: those
of the render that created it. -/
structure MangaRender (α : Type) where
  topManga : List (Enriched α)
  retryCount : Nat
  deriving DecidableEq, Repr

/-- The render that the mount effect `useEffect(() => { fetchManga(); }, [])` takes its
`fetchManga` from: the first one. -/
def MangaRender.first {α : Type} : MangaRender α :=
  { topManga := [], retryCount := 0 }

/-- What the network answers during one call of `fetchManga`: the base list request,
whose `data` entries are records or `null`, and the statistics request of each
position. -/
structure MangaNet (α : Type) where
  base : Response (Option α)
  stats : Nat → StatsResponse

/-- What one call of `fetchManga` leaves behind; `timers` lists the delays of the
timeouts it created. -/
structure MangaOutcome (α : Type) where
  state : MangaState α
  store : LocalStorage
  timers : List Nat
  deriving DecidableEq, Repr

/-- The `catch` of `fetchManga`, in the closure of render `c`. -/
def mangaCatch {α : Type} (c : MangaRender α) (e : FetchError) (s : MangaState α)
    (store : LocalStorage) : MangaOutcome α :=
  { state := { s with error := some e, loading := false }
    store := store
    timers := if c.topManga.length = 0 then [min (1000 * 2 ^ c.retryCount) 30000] else [] }

/-- One call of the `fetchManga` closure of render `c`. -/
def fetchManga {α : Type} (codec : JsonCodec (Enriched α)) (c : MangaRender α)
    (net : MangaNet α) (s : MangaState α) (store : LocalStorage) : MangaOutcome α :=
  let s1 := { s with loading := true }
  match net.base with
  | .rejected => mangaCatch c .networkError s1 store
  | .notJson => mangaCatch c .syntaxError s1 store
  | .noData => mangaCatch c .unexpectedFormat s1 store
  | .data xs =>
    let mangaList := xs.take 24
    match fetchMangaStats net.stats mangaList with
    | .error e => mangaCatch c e s1 store
    | .ok updatedMangaList =>
      let s2 := { s1 with topManga := updatedMangaList }
      match setItem store "updatedMangaList" (codec.stringify updatedMangaList) with
      | none => mangaCatch c .quotaExceeded s2 store
      | some store1 =>
        { state := { s2 with loading := false, error := none }, store := store1, timers := [] }

/-- The callback of the retry timeout created by the closure of render `c`:
`setRetryCount(retryCount + 1)` with the closure's `retryCount`; the `fetchManga()`
that follows it is the same closure again. -/
def retryCallback {α : Type} (c : MangaRender α) (s : MangaState α) : MangaState α :=
  { s with retryCount := c.retryCount + 1 }

/-- The manga grid from a call of the closure of render `c` on: that call and then one
call of the same closure for each retry timeout that comes due, the i-th call receiving
the i-th network behaviour.  Returns the last outcome observed and the delays of all
retry timeouts created. -/
def runManga {α : Type} (codec : JsonCodec (Enriched α)) (c : MangaRender α) :
    List (MangaNet α) → MangaState α → LocalStorage → MangaState α × LocalStorage × List Nat
  | [], s, store => (s, store, [])
  | net :: rest, s, store =>
    let r := fetchManga codec c net s store
    match r.timers with
    | [] => (r.state, r.store, [])
    | d :: ds =>
      match rest with
      | [] => (r.state, r.store, d :: ds)
      | _ :: _ =>
        let out := runManga codec c rest (retryCallback c r.state) r.store
        (out.1, out.2.1, d :: ds ++ out.2.2)

/-- The delay the specification gives for the retry after `n` earlier consecutive
failures: capped exponential backoff. -/
def specBackoff (n : Nat) : Nat :=
  min (1000 * 2 ^ n) 30000

/-! ## Spec-side vocabulary used by the statements -/

/-- The enrichment metric as the specification words it: the returned reading value on
success, zero on a failed call or a missing value. -/
def specReadingCount : StatsResponse → Nat
  | .reading (some n) => n
  | _ => 0

/-- The enriched list as the specification words it: every input item, in input order,
with its metric; the call for position `i` is answered by `stats i`. -/
def specEnrichedFrom {α : Type} (stats : Nat → StatsResponse) : Nat → List α → List (Enriched α)
  | _, [] => []
  | i, manga :: rest =>
    { manga := manga, readingCount := specReadingCount (stats i) } ::
      specEnrichedFrom stats (i + 1) rest

/-- A network on which the base list request of the manga grid is rejected. -/
def failingNet : MangaNet Nat :=
  { base := .rejected, stats := fun _ => .rejected }

/-- A codec for lists of natural numbers that knows the single text `[7]`. -/
def sampleCodec : JsonCodec Nat :=
  { stringify := fun _ => "[7]"
    parse := fun s => if s = "[7]" then some (.arr [7]) else none }

/-- A codec for enriched items; the failing paths never consult it. -/
def sampleEnrichedCodec : JsonCodec (Enriched Nat) :=
  { stringify := fun _ => "[]"
    parse := fun _ => none }

/-- An empty `localStorage` with quota left. -/
def emptyStore : LocalStorage :=
  { items := [], quotaExceeded := false }

/-- An overlay showing item `1` with no timeout pending, at time zero. -/
def shownOverlay : Overlay Nat :=
  { activeTooltip := some 1
    tooltipPosition := some { top := 40, left := 210 }
    tooltipTimeout := none
    timers := []
    nextId := 0
    now := 0 }

/-- The number written by a list of decimal digit characters, most significant
first. -/
def decodeDecimal (l : List Char) : Nat :=
  l.foldl (fun acc c => acc * 10 + (c.toNat - 48)) 0

/-- What a list component shows in its content area. -/
inductive View where
  | loadingIndicator
  | errorIndicator
  | rankedList
  deriving DecidableEq, Repr

/-- The render expression of `AnimeSlider`: `loading ? <Loading> : error ? <Error> :
<Slider>`; the stored error is `error.toString()`, a non-empty string, so it is truthy
exactly when it is set. -/
def sliderView {α : Type} (s : SliderState α) : View :=
  if s.loading then .loadingIndicator
  else if s.error.isSome then .errorIndicator
  else .rankedList

/-- The slider from mount on, seen together with the origin's `localStorage`:
`animeslider.jsx` contains no `localStorage` call, so the storage is handed through. -/
def sliderMount {α : Type} (store : LocalStorage) (rs : List (Response α))
    (s : SliderState α) : SliderState α × LocalStorage :=
  ((runSlider rs s).1, store)

/-- A network on which the base list request of the manga grid answers with an empty
`data` array. -/
def emptyListNet : MangaNet Nat :=
  { base := .data [], stats := fun _ => .rejected }

/-! ## Pointer events as the page delivers them

The JSX of `Anidisplay` puts `onClick`, `onMouseEnter` and `onMouseLeave` on every cell
(`handleClick`, `cancelTooltipHide`, `handleMouseLeave`) and no pointer handler on the
tooltip `div`. -/

/-- What can happen on the page between two renders: the pointer enters or leaves a
cell, a cell is clicked, the pointer enters or leaves the tooltip, or time passes. -/
inductive PointerEvent (α : Type) where
  | enterCell
  | leaveCell
  | clickCell (rect : Rect) (innerWidth : ℚ) (anime : α)
  | enterOverlay
  | leaveOverlay
  | wait (dt : Nat)

/-- The tooltip state together with whether the pointer is over a cell. -/
structure Page (α : Type) where
  overlay : Overlay α
  overCell : Bool

/-- The handler the page runs for one event, as wired in the JSX; `none` where the
browser cannot deliver the event: a cell is entered only from outside the cells, and
left or clicked only while the pointer is over it.  The tooltip has no handler. -/
def deliver {α : Type} : PointerEvent α → Page α → Option (Page α)
  | .enterCell, p =>
    if p.overCell then none
    else some { overlay := cancelTooltipHide p.overlay, overCell := true }
  | .leaveCell, p =>
    if p.overCell then some { overlay := handleMouseLeave p.overlay, overCell := false }
    else none
  | .clickCell rect innerWidth anime, p =>
    if p.overCell then
      some { overlay := handleClick rect innerWidth anime p.overlay, overCell := true }
    else none
  | .enterOverlay, p => some p
  | .leaveOverlay, p => some p
  | .wait dt, p => some { overlay := elapse dt p.overlay, overCell := p.overCell }

/-- A sequence of events delivered in order. -/
def deliverAll {α : Type} : List (PointerEvent α) → Page α → Option (Page α)
  | [], p => some p
  | e :: es, p =>
    match deliver e p with
    | some q => deliverAll es q
    | none => none

/-- Events that are neither a pointer leave of a cell nor a click. -/
def PointerEvent.isQuiet {α : Type} : PointerEvent α → Bool
  | .leaveCell => false
  | .clickCell _ _ _ => false
  | _ => true

/-- While the pointer is over a cell no hide is pending, and a pending hide is always
the one whose handle the ref holds. -/
def Page.tracked {α : Type} (p : Page α) : Prop :=
  (p.overCell = true → p.overlay.timers = [])
    ∧ ∀ t ∈ p.overlay.timers, some t.id = p.overlay.tooltipTimeout

/-! ## Placement -/

/-- C1: the position set by `handleClick` is the specification's ordered three-rule
placement of the trigger's box in a viewport of width `W` (narrow rule first, then the
right-edge rule, then placement to the right), with `top` always the trigger's top; the
specification's three worked examples evaluate to 1380, 210 and 150. -/
theorem handleClick_position_eq_specPlacement {α : Type} (rect : Rect) (W : ℚ) (anime : α)
    (s : Overlay α) :
    (handleClick rect W anime s).tooltipPosition
        = some (specPlacement rect.top rect.left rect.width W)
      ∧ (specPlacement rect.top rect.left rect.width W).top = rect.top
      ∧ tooltipPlacement { top := rect.top, left := 1700, width := 100 } 1920
          = { top := rect.top, left := 1380 }
      ∧ tooltipPlacement { top := rect.top, left := 100, width := 100 } 1920
          = { top := rect.top, left := 210 }
      ∧ tooltipPlacement rect 500 = { top := rect.top, left := 150 } := by
  refine ⟨?_, ?_, ?_, ?_, ?_⟩
  · simp only [handleClick, tooltipPlacement, specPlacement, isLastColumn, decide_eq_true_eq]
    have hiff : (rect.left + rect.width > W - 350) ↔ (W - (rect.left + rect.width) < 350) := by
      constructor <;> intro h <;> linarith
    by_cases h1 : W ≤ 768
    · simp [h1]
    · by_cases h2 : rect.left + rect.width > W - 350
      · simp [h1, h2, hiff.mp h2]
      · have h3 : ¬ (W - (rect.left + rect.width) < 350) := fun h => h2 (hiff.mpr h)
        simp [h1, h2, h3]
  · unfold specPlacement
    split_ifs <;> rfl
  · simp only [tooltipPlacement, isLastColumn]
    norm_num
  · simp only [tooltipPlacement, isLastColumn]
    norm_num
  · simp only [tooltipPlacement]
    norm_num

/-! ## Variant B: retry delays -/

/-- A failed call of the mount closure creates one timeout of 1000 ms, whatever the
React state has become. -/
theorem fetchManga_first_timers_of_rejected {α : Type} (codec : JsonCodec (Enriched α))
    (stats : Nat → StatsResponse) (s : MangaState α) (store : LocalStorage) :
    (fetchManga codec MangaRender.first { base := .rejected, stats := stats } s store).timers
      = [1000] := by
  simp [fetchManga, mangaCatch, MangaRender.first]

/-- From mount on, every retry after a rejected base request is scheduled 1000 ms
later, however many have failed before, and the state's `retryCount` never exceeds 1. -/
theorem runManga_first_delays_constant {α : Type} (codec : JsonCodec (Enriched α))
    (statss : List (Nat → StatsResponse)) (s : MangaState α) (store : LocalStorage) :
    (runManga codec MangaRender.first
        (statss.map (fun st => { base := .rejected, stats := st })) s store).2.2
      = List.replicate statss.length 1000 := by
  induction statss generalizing s store with
  | nil => simp [runManga]
  | cons st rest ih =>
    cases rest with
    | nil =>
      simp [runManga, fetchManga, mangaCatch, MangaRender.first]
    | cons st2 rest2 =>
      have h := ih (retryCallback MangaRender.first
        (fetchManga codec MangaRender.first { base := .rejected, stats := st } s store).state)
        (fetchManga codec MangaRender.first { base := .rejected, stats := st } s store).store
      simp only [List.map_cons, List.length_cons] at h ⊢
      rw [runManga]
      simp only [fetchManga_first_timers_of_rejected]
      rw [h]
      simp [List.replicate_succ]

/-- C3: at the failing input (the first two base-list requests after mount are both
rejected) `fetchManga` schedules the retries after 1000 ms and 1000 ms, whereas the
capped exponential backoff of the claim gives 1000 ms and 2000 ms: the retry runs the
closure of the first render, whose `retryCount` is 0 for ever. -/
theorem fetchManga_backoff_stale_at_two_failures :
    (runManga sampleEnrichedCodec MangaRender.first [failingNet, failingNet]
        MangaState.initial emptyStore).2.2 = [1000, 1000]
      ∧ [specBackoff 0, specBackoff 1] = [1000, 2000]
      ∧ (runManga sampleEnrichedCodec MangaRender.first [failingNet, failingNet, failingNet]
          MangaState.initial emptyStore).1.retryCount = 1 := by
  refine ⟨?_, ?_, ?_⟩
  · rfl
  · decide
  · rfl

/-! ## Variant A: retry -/

/-- Every failing or empty answer makes `fetchAnimeWithStats` set the error and create
exactly one timeout, of 1000 ms. -/
theorem fetchAnimeWithStats_of_failsOrEmpty {α : Type} (r : Response α) (s : SliderState α)
    (h : r.failsOrEmpty = true) :
    (fetchAnimeWithStats r s).2 = [1000] ∧ (fetchAnimeWithStats r s).1.error.isSome = true := by
  cases r with
  | rejected => simp [fetchAnimeWithStats, sliderCatch]
  | notJson => simp [fetchAnimeWithStats, sliderCatch]
  | noData => simp [fetchAnimeWithStats, sliderCatch]
  | data xs =>
    have hx : xs = [] := by simpa [Response.failsOrEmpty] using h
    subst hx
    simp [fetchAnimeWithStats, sliderCatch]

/-- C4: every attempt of the anime slider that fails or returns an empty list sets the
error state and schedules exactly one new attempt 1000 ms later, at every attempt
number; `k` consecutive such attempts schedule exactly `k` retries, all of 1000 ms. -/
theorem fetchAnimeWithStats_retries_every_failure {α : Type} (rs : List (Response α))
    (s : SliderState α) (h : ∀ r ∈ rs, r.failsOrEmpty = true) :
    (∀ r ∈ rs, ∀ s1 : SliderState α,
        (fetchAnimeWithStats r s1).2 = [1000] ∧ (fetchAnimeWithStats r s1).1.error.isSome = true)
      ∧ (runSlider rs s).2 = List.replicate rs.length 1000
      ∧ (runSlider rs s).2.length = rs.length := by
  have hrun : ∀ (rs : List (Response α)) (s : SliderState α),
      (∀ r ∈ rs, r.failsOrEmpty = true) →
      (runSlider rs s).2 = List.replicate rs.length 1000 := by
    intro rs
    induction rs with
    | nil => intro s _; simp [runSlider]
    | cons r rest ih =>
      intro s hall
      have hr := (fetchAnimeWithStats_of_failsOrEmpty r s (hall r (List.mem_cons_self _ _))).1
      cases rest with
      | nil => simp [runSlider, hr]
      | cons r2 rest2 =>
        have hrest := ih (fetchAnimeWithStats r s).1
          (fun x hx => hall x (List.mem_cons_of_mem _ hx))
        rw [runSlider]
        simp only [hr]
        rw [hrest]
        simp [List.replicate_succ]
  refine ⟨fun r hr s1 => fetchAnimeWithStats_of_failsOrEmpty r s1 (h r hr), hrun rs s h, ?_⟩
  rw [hrun rs s h, List.length_replicate]

/-- Witness for C4: three failing attempts (rejected, empty list, not JSON) from the
initial state. -/
theorem fetchAnimeWithStats_retries_every_failure_witness :
    (∀ r ∈ [Response.rejected, Response.data ([] : List Nat), Response.notJson],
        ∀ s1 : SliderState Nat,
          (fetchAnimeWithStats r s1).2 = [1000]
            ∧ (fetchAnimeWithStats r s1).1.error.isSome = true)
      ∧ (runSlider [Response.rejected, Response.data ([] : List Nat), Response.notJson]
          SliderState.initial).2 = List.replicate 3 1000
      ∧ (runSlider [Response.rejected, Response.data ([] : List Nat), Response.notJson]
          SliderState.initial).2.length = 3 :=
  fetchAnimeWithStats_retries_every_failure
    [Response.rejected, Response.data ([] : List Nat), Response.notJson] SliderState.initial
    (by decide)

/-! ## Variant B: enrichment -/

/-- On a record the per-item function always fulfils, with the metric the specification
names. -/
theorem enrichOne_eq_ok {α : Type} (manga : α) (r : StatsResponse) :
    enrichOne (some manga) r = .ok { manga := manga, readingCount := specReadingCount r } := by
  cases r with
  | rejected => rfl
  | notJson => rfl
  | noData => rfl
  | reading v =>
    cases v with
    | none => rfl
    | some n =>
      by_cases hn : n = 0
      · subst hn; rfl
      · simp [enrichOne, readingOrZero, specReadingCount, hn]

/-- On a list of records the joined per-item calls always fulfil, with the enriched
list in input order. -/
theorem promiseAll_enrichFrom {α : Type} (stats : Nat → StatsResponse) (i : Nat)
    (mangaList : List α) :
    promiseAll (enrichFrom stats i (mangaList.map some))
      = .ok (specEnrichedFrom stats i mangaList) := by
  induction mangaList generalizing i with
  | nil => rfl
  | cons manga rest ih =>
    simp [enrichFrom, specEnrichedFrom, enrichOne_eq_ok, promiseAll, ih]

/-- The joined per-item calls fulfil only on a list of records. -/
theorem promiseAll_enrichFrom_ok_records {α : Type} (stats : Nat → StatsResponse) (i : Nat)
    (l : List (Option α)) (res : List (Enriched α))
    (h : promiseAll (enrichFrom stats i l) = .ok res) :
    ∃ records : List α, l = records.map some := by
  induction l generalizing i res with
  | nil => exact ⟨[], rfl⟩
  | cons entry rest ih =>
    cases entry with
    | none => simp [enrichFrom, enrichOne, promiseAll] at h
    | some record =>
      rw [enrichFrom, enrichOne_eq_ok, promiseAll] at h
      cases hrest : promiseAll (enrichFrom stats (i + 1) rest) with
      | error e => rw [hrest] at h; simp at h
      | ok bs =>
        obtain ⟨records, hrec⟩ := ih (i + 1) bs hrest
        exact ⟨record :: records, by rw [hrec]; rfl⟩

/-- The result of `fetchMangaStats` on a list of records, in closed form. -/
theorem fetchMangaStats_eq_ok {α : Type} (stats : Nat → StatsResponse) (mangaList : List α) :
    fetchMangaStats stats (mangaList.map some)
      = .ok (arraySort compareReading (specEnrichedFrom stats 0 mangaList)) := by
  simp [fetchMangaStats, promiseAll_enrichFrom]

/-- Whenever `fetchMangaStats` returns a list, its input was a list of records and the
list returned is the sorted enriched list of those records. -/
theorem fetchMangaStats_ok_records {α : Type} (stats : Nat → StatsResponse)
    (l : List (Option α)) (res : List (Enriched α)) (h : fetchMangaStats stats l = .ok res) :
    ∃ records : List α,
      l = records.map some
        ∧ res = arraySort compareReading (specEnrichedFrom stats 0 records) := by
  have hrecords : ∃ records : List α, l = records.map some := by
    unfold fetchMangaStats at h
    cases hall : promiseAll (enrichFrom stats 0 l) with
    | error e => rw [hall] at h; simp at h
    | ok updated => exact promiseAll_enrichFrom_ok_records stats 0 l updated hall
  obtain ⟨records, hrec⟩ := hrecords
  subst hrec
  rw [fetchMangaStats_eq_ok] at h
  exact ⟨records, rfl, (Except.ok.inj h).symm⟩

/-- The enriched list has one entry per input item, carrying that item. -/
theorem specEnrichedFrom_map_manga {α : Type} (stats : Nat → StatsResponse) (i : Nat)
    (mangaList : List α) :
    (specEnrichedFrom stats i mangaList).map (fun e => e.manga) = mangaList := by
  induction mangaList generalizing i with
  | nil => rfl
  | cons manga rest ih => simp [specEnrichedFrom, ih]

/-- The sort only rearranges. -/
theorem arraySort_perm {β : Type} (compare : β → β → Int) (l : List β) :
    (arraySort compare l).Perm l :=
  List.perm_insertionSort _ l

/-- Inserting an item keeps, among the items of one metric value, the inserted item in
front: the items it is moved past have a strictly larger metric. -/
theorem filter_orderedInsert_compareReading {α : Type} (c : Nat) (a : Enriched α)
    (l : List (Enriched α)) :
    (l.orderedInsert (fun x y => compareReading x y ≤ 0) a).filter
        (fun e => decide (e.readingCount = c))
      = (a :: l).filter (fun e => decide (e.readingCount = c)) := by
  induction l with
  | nil => rfl
  | cons b rest ih =>
    by_cases hab : compareReading a b ≤ 0
    · simp [List.orderedInsert, hab]
    · have hlt : a.readingCount < b.readingCount := by
        unfold compareReading at hab
        omega
      simp only [List.orderedInsert, hab, if_false]
      rw [List.filter_cons, ih]
      by_cases hac : a.readingCount = c
      · have hbc : ¬ b.readingCount = c := by omega
        simp [List.filter_cons, hac, hbc]
      · by_cases hbc : b.readingCount = c
        · simp [List.filter_cons, hac, hbc]
        · simp [List.filter_cons, hac, hbc]

/-- The sort keeps the items of each metric value in their input order. -/
theorem filter_arraySort_compareReading {α : Type} (c : Nat) (l : List (Enriched α)) :
    (arraySort compareReading l).filter (fun e => decide (e.readingCount = c))
      = l.filter (fun e => decide (e.readingCount = c)) := by
  induction l with
  | nil => rfl
  | cons a rest ih =>
    have h := filter_orderedInsert_compareReading c a (arraySort compareReading rest)
    unfold arraySort at h ih ⊢
    rw [List.insertionSort, h, List.filter_cons, List.filter_cons, ih]

/-- The sort leaves the list in descending order of the metric. -/
theorem arraySort_compareReading_sorted {α : Type} (l : List (Enriched α)) :
    (arraySort compareReading l).Sorted (fun a b => b.readingCount ≤ a.readingCount) := by
  have htotal : IsTotal (Enriched α) (fun a b => compareReading a b ≤ 0) :=
    ⟨fun a b => by unfold compareReading; omega⟩
  have htrans : IsTrans (Enriched α) (fun a b => compareReading a b ≤ 0) :=
    ⟨fun a b c hab hbc => by unfold compareReading at *; omega⟩
  have hs := List.sorted_insertionSort (fun a b : Enriched α => compareReading a b ≤ 0) l
  refine List.Pairwise.imp ?_ hs
  intro a b hab
  unfold compareReading at hab
  omega

/-- C5: on every list of manga records, with any outcomes of the statistics calls, the
list returned by `fetchMangaStats` is a permutation of the enriched input, is in
descending order of `readingCount`, and is stable: for each value of `readingCount`,
the items with that value come out in the order they went in.  Every list that
`fetchMangaStats` returns arises in this way. -/
theorem fetchMangaStats_sorted_stable {α : Type} (stats : Nat → StatsResponse)
    (mangaList : List α) :
    (∃ out : List (Enriched α),
      fetchMangaStats stats (mangaList.map some) = .ok out
        ∧ out.Perm (specEnrichedFrom stats 0 mangaList)
        ∧ out.Sorted (fun a b => b.readingCount ≤ a.readingCount)
        ∧ ∀ c : Nat,
            out.filter (fun e => decide (e.readingCount = c))
              = (specEnrichedFrom stats 0 mangaList).filter
                  (fun e => decide (e.readingCount = c)))
      ∧ ∀ (l : List (Option α)) (res : List (Enriched α)),
          fetchMangaStats stats l = .ok res →
            ∃ records : List α,
              l = records.map some
                ∧ res = arraySort compareReading (specEnrichedFrom stats 0 records)
                ∧ res.Perm (specEnrichedFrom stats 0 records)
                ∧ res.Sorted (fun a b => b.readingCount ≤ a.readingCount)
                ∧ ∀ c : Nat,
                    res.filter (fun e => decide (e.readingCount = c))
                      = (specEnrichedFrom stats 0 records).filter
                          (fun e => decide (e.readingCount = c)) := by
  refine ⟨⟨arraySort compareReading (specEnrichedFrom stats 0 mangaList),
    fetchMangaStats_eq_ok stats mangaList,
    arraySort_perm _ _,
    arraySort_compareReading_sorted _,
    fun c => filter_arraySort_compareReading c _⟩, ?_⟩
  intro l res h
  obtain ⟨records, hl, hres⟩ := fetchMangaStats_ok_records stats l res h
  subst hres
  exact ⟨records, hl, rfl, arraySort_perm _ _, arraySort_compareReading_sorted _,
    fun c => filter_arraySort_compareReading c _⟩

/-- C6, as stated, fails: a base list with a `null` entry makes `fetchMangaStats` fail
as a whole, although every statistics call would succeed. -/
theorem fetchMangaStats_fails_on_null_entry :
    fetchMangaStats (fun _ => StatsResponse.reading (some 5))
        ([some 1, none, some 3] : List (Option Nat))
      = .error .typeError := by
  rfl

/-- C6, amended: for every base list of manga records (no `null` entry) and whatever the
per-item statistics calls answer (a reading value, a missing or zero value, a failure),
`fetchMangaStats` fulfils, and its list has the length of the input and holds exactly
the input items, each unchanged and paired with its reading value on success and with
0 on failure or missing value. -/
theorem fetchMangaStats_partial_failure {α : Type} (stats : Nat → StatsResponse)
    (mangaList : List α) :
    ∃ out : List (Enriched α),
      fetchMangaStats stats (mangaList.map some) = .ok out
        ∧ out.length = mangaList.length
        ∧ out.Perm (specEnrichedFrom stats 0 mangaList)
        ∧ (out.map (fun e => e.manga)).Perm mangaList := by
  refine ⟨arraySort compareReading (specEnrichedFrom stats 0 mangaList),
    fetchMangaStats_eq_ok stats mangaList, ?_, arraySort_perm _ _, ?_⟩
  · have h := ((arraySort_perm compareReading (specEnrichedFrom stats 0 mangaList)).map
      (fun e => e.manga)).length_eq
    simpa [specEnrichedFrom_map_manga] using h
  · have h := (arraySort_perm compareReading (specEnrichedFrom stats 0 mangaList)).map
      (fun e => e.manga)
    rwa [specEnrichedFrom_map_manga] at h

/-! ## Truncation of the base list -/

/-- C7, as stated, fails for Variant A: a response of 25 items leaves 25 items in the
slider's state, not its first 24. -/
theorem fetchAnimeWithStats_keeps_25_items :
    (fetchAnimeWithStats (Response.data (List.range 25)) SliderState.initial).1.topAnime
        ≠ (List.range 25).take 24
      ∧ (fetchAnimeWithStats (Response.data (List.range 25))
          SliderState.initial).1.topAnime.length = 25 := by
  decide

/-- C7, amended: in Variant B (manga grid) the base list handed to the enrichment is the
first `min 24 n` entries of the response's data in the response's order (whatever
follows them has no effect on the outcome), so for a response of records the list
placed in state has `min 24 n` items and holds exactly those entries; in Variant A
(anime slider) the list placed in state is the whole data of a non-empty response, in
the response's order, with no truncation. -/
theorem base_list_truncation_by_variant {α : Type} (codec : JsonCodec (Enriched α))
    (c : MangaRender α) (stats : Nat → StatsResponse) (xs : List α) (s : MangaState α)
    (store : LocalStorage) (x : α) (s1 : SliderState α) :
    (∃ out : List (Enriched α),
        fetchMangaStats stats ((xs.map some).take 24) = .ok out
          ∧ (fetchManga codec c { base := .data (xs.map some), stats := stats } s
              store).state.topManga = out
          ∧ out.length = min 24 xs.length
          ∧ out.length ≤ 24
          ∧ (out.map (fun e => e.manga)).Perm (xs.take 24))
      ∧ (∀ entries : List (Option α),
          fetchManga codec c { base := .data entries, stats := stats } s store
            = fetchManga codec c { base := .data (entries.take 24), stats := stats } s store)
      ∧ (fetchAnimeWithStats (.data (x :: xs)) s1).1.topAnime = x :: xs := by
  have htake : (xs.map some).take 24 = (xs.take 24).map some := by
    rw [List.map_take]
  refine ⟨⟨arraySort compareReading (specEnrichedFrom stats 0 (xs.take 24)),
    by rw [htake]; exact fetchMangaStats_eq_ok stats _, ?_, ?_, ?_, ?_⟩, ?_, ?_⟩
  · simp only [fetchManga, htake, fetchMangaStats_eq_ok]
    cases hset : setItem store "updatedMangaList"
        (codec.stringify (arraySort compareReading (specEnrichedFrom stats 0 (xs.take 24)))) with
    | none => simp [mangaCatch]
    | some store1 => simp
  · have h := ((arraySort_perm compareReading (specEnrichedFrom stats 0 (xs.take 24))).map
      (fun e => e.manga)).length_eq
    simpa [specEnrichedFrom_map_manga] using h
  · have h := ((arraySort_perm compareReading (specEnrichedFrom stats 0 (xs.take 24))).map
      (fun e => e.manga)).length_eq
    simp only [List.length_map, specEnrichedFrom_map_manga, List.length_take] at h
    omega
  · have h := (arraySort_perm compareReading (specEnrichedFrom stats 0 (xs.take 24))).map
      (fun e => e.manga)
    rwa [specEnrichedFrom_map_manga] at h
  · intro entries
    simp only [fetchManga, List.take_take, min_self]
  · simp [fetchAnimeWithStats]

/-! ## Overlay controller -/

/-- Re-entering a cell in time: from a state that shows item `i` at position `p` with no
hide pending, after `handleMouseLeave` followed less than 300 ms later by
`cancelTooltipHide`, the overlay shows `i` at `p` at every instant in between and at
every instant afterwards, and no timeout is left that could hide it. -/
theorem hide_hysteresis {α : Type} (s : Overlay α) (i : α) (p : Position) (d1 : Nat)
    (hitem : s.activeTooltip = some i) (hpos : s.tooltipPosition = some p)
    (hidle : s.timers = []) (hd1 : d1 < 300) :
    (∀ d : Nat, d ≤ d1 →
        (elapse d (handleMouseLeave s)).activeTooltip = some i
          ∧ (elapse d (handleMouseLeave s)).tooltipPosition = some p)
      ∧ ∀ d2 : Nat,
          (elapse d2 (cancelTooltipHide (elapse d1 (handleMouseLeave s)))).activeTooltip = some i
            ∧ (elapse d2 (cancelTooltipHide (elapse d1 (handleMouseLeave s)))).tooltipPosition
                = some p
            ∧ (elapse d2 (cancelTooltipHide (elapse d1 (handleMouseLeave s)))).timers = []
            ∧ isVisible (elapse d2 (cancelTooltipHide (elapse d1 (handleMouseLeave s))))
                = true := by
  constructor
  · intro d hd
    have hlt : ¬ (s.now + 300 ≤ s.now + d) := by omega
    simp [elapse, handleMouseLeave, hitem, hpos, hidle, hlt]
  · intro d2
    have hlt : ¬ (s.now + 300 ≤ s.now + d1) := by omega
    have hgt : s.now + d1 < s.now + 300 := by omega
    simp [elapse, handleMouseLeave, cancelTooltipHide, clearTimeout, isVisible, hitem, hpos,
      hidle, hlt, hgt]

/-- C8: at the failing input (item 1 shown, pointer over its cell; the pointer leaves
the cell at 0 ms, is over the tooltip at 100 ms and stays there) the tooltip, which has
no pointer handler, cancels nothing: the hide callback fires at 300 ms and the overlay
is hidden.  Entering a cell instead of the tooltip at 100 ms keeps item 1 shown. -/
theorem overlay_enter_does_not_cancel_hide :
    (deliverAll [PointerEvent.leaveCell, .wait 100, .enterOverlay, .wait 200]
        { overlay := shownOverlay, overCell := true }).map (fun q => q.overlay.activeTooltip)
        = some none
      ∧ (deliverAll [PointerEvent.leaveCell, .wait 100, .enterOverlay, .wait 200]
          { overlay := shownOverlay, overCell := true }).map (fun q => isVisible q.overlay)
          = some false
      ∧ (deliverAll [PointerEvent.leaveCell, .wait 100, .enterOverlay]
          { overlay := shownOverlay, overCell := true }).map (fun q => q.overlay.timers)
          = some [{ id := 0, fireAt := 300 }]
      ∧ (deliverAll [PointerEvent.leaveCell, .wait 100, .enterCell, .wait 200]
          { overlay := shownOverlay, overCell := true }).map (fun q => q.overlay.activeTooltip)
          = some (some 1) := by
  refine ⟨?_, ?_, ?_, ?_⟩ <;> rfl

/-- Where the only timeout that can be pending is the one held in the ref (no pointer
leave has overwritten the handle of a timeout still pending), `handleClick` leaves no
timeout pending and the overlay shows the clicked item at its placement from then on. -/
theorem handleClick_wins_of_tracked_timer {α : Type} (s : Overlay α) (rect : Rect) (W : ℚ)
    (j : α) (htracked : ∀ t ∈ s.timers, some t.id = s.tooltipTimeout) (d : Nat) :
    (handleClick rect W j s).timers = []
      ∧ (elapse d (handleClick rect W j s)).activeTooltip = some j
      ∧ (elapse d (handleClick rect W j s)).tooltipPosition = some (tooltipPlacement rect W) := by
  have hclear : clearTimeout s.tooltipTimeout s.timers = [] := by
    unfold clearTimeout
    rw [List.filter_eq_nil_iff]
    intro t ht
    simp [htracked t ht]
  simp [handleClick, elapse, hclear]

/-- Clearing the handle in the ref empties a queue that holds only the tracked
timeout. -/
theorem clearTimeout_of_tracked (handle : Option Nat) (timers : List Timer)
    (htracked : ∀ t ∈ timers, some t.id = handle) : clearTimeout handle timers = [] := by
  unfold clearTimeout
  rw [List.filter_eq_nil_iff]
  intro t ht
  simp [htracked t ht]

/-- Every deliverable event keeps the pending hide tracked. -/
theorem deliver_tracked {α : Type} (e : PointerEvent α) (p q : Page α) (hp : p.tracked)
    (h : deliver e p = some q) : q.tracked := by
  obtain ⟨hover, htr⟩ := hp
  cases e with
  | enterCell =>
    by_cases hc : p.overCell = true
    · simp [deliver, hc] at h
    · simp only [deliver, hc, Bool.false_eq_true, if_false, Option.some.injEq] at h
      subst h
      have hclear := clearTimeout_of_tracked _ _ htr
      exact ⟨fun _ => hclear, by simp [cancelTooltipHide, hclear]⟩
  | leaveCell =>
    by_cases hc : p.overCell = true
    · simp only [deliver, hc, if_true, Option.some.injEq] at h
      subst h
      refine ⟨by simp, ?_⟩
      simp [handleMouseLeave, hover hc]
    · simp [deliver, hc] at h
  | clickCell rect w anime =>
    by_cases hc : p.overCell = true
    · simp only [deliver, hc, if_true, Option.some.injEq] at h
      subst h
      have hclear := clearTimeout_of_tracked _ _ htr
      exact ⟨fun _ => hclear, by simp [handleClick, hclear]⟩
    · simp [deliver, hc] at h
  | enterOverlay =>
    simp only [deliver, Option.some.injEq] at h
    subst h
    exact ⟨hover, htr⟩
  | leaveOverlay =>
    simp only [deliver, Option.some.injEq] at h
    subst h
    exact ⟨hover, htr⟩
  | wait dt =>
    simp only [deliver, Option.some.injEq] at h
    subst h
    refine ⟨?_, ?_⟩
    · intro hc
      simp [elapse, hover hc]
    · intro t ht
      simp only [elapse, List.mem_filter] at ht
      exact htr t ht.1

/-- Every deliverable sequence of events keeps the pending hide tracked. -/
theorem deliverAll_tracked {α : Type} (es : List (PointerEvent α)) (p q : Page α)
    (hp : p.tracked) (h : deliverAll es p = some q) : q.tracked := by
  induction es generalizing p with
  | nil =>
    simp only [deliverAll, Option.some.injEq] at h
    subst h
    exact hp
  | cons e rest ih =>
    rw [deliverAll] at h
    cases hd : deliver e p with
    | none => rw [hd] at h; simp at h
    | some r =>
      rw [hd] at h
      exact ih r (deliver_tracked e p r hp hd) h

/-- With no hide pending, events other than a pointer leave and a click change neither
the item shown nor its position, and start no hide. -/
theorem deliverAll_quiet {α : Type} (es : List (PointerEvent α)) (p q : Page α)
    (hquiet : es.all PointerEvent.isQuiet = true) (hidle : p.overlay.timers = [])
    (h : deliverAll es p = some q) :
    q.overlay.timers = []
      ∧ q.overlay.activeTooltip = p.overlay.activeTooltip
      ∧ q.overlay.tooltipPosition = p.overlay.tooltipPosition := by
  induction es generalizing p with
  | nil =>
    simp only [deliverAll, Option.some.injEq] at h
    subst h
    exact ⟨hidle, rfl, rfl⟩
  | cons e rest ih =>
    simp only [List.all_cons, Bool.and_eq_true] at hquiet
    rw [deliverAll] at h
    cases hd : deliver e p with
    | none => rw [hd] at h; simp at h
    | some r =>
      rw [hd] at h
      have hstep : r.overlay.timers = []
          ∧ r.overlay.activeTooltip = p.overlay.activeTooltip
          ∧ r.overlay.tooltipPosition = p.overlay.tooltipPosition := by
        cases e with
        | enterCell =>
          by_cases hc : p.overCell = true
          · simp [deliver, hc] at hd
          · simp only [deliver, hc, Bool.false_eq_true, if_false, Option.some.injEq] at hd
            subst hd
            simp [cancelTooltipHide, clearTimeout, hidle]
        | leaveCell => simp [PointerEvent.isQuiet] at hquiet
        | clickCell rect w anime => simp [PointerEvent.isQuiet] at hquiet
        | enterOverlay =>
          simp only [deliver, Option.some.injEq] at hd
          subst hd
          exact ⟨hidle, rfl, rfl⟩
        | leaveOverlay =>
          simp only [deliver, Option.some.injEq] at hd
          subst hd
          exact ⟨hidle, rfl, rfl⟩
        | wait dt =>
          simp only [deliver, Option.some.injEq] at hd
          subst hd
          simp [elapse, hidle]
      obtain ⟨h1, h2, h3⟩ := ih r hquiet.2 hstep.1 h
      exact ⟨h1, h2.trans hstep.2.1, h3.trans hstep.2.2⟩

/-- C9: in every overlay state the page can reach from a state with no hide pending, by
any sequence of pointer events and waits (Hidden, Visible, or PendingHide after any
number of pointer leaves), and for every item `j`: after `handleClick` on `j` no hide
timeout is pending, the active item is `j` at the placement computed for its trigger,
and the overlay stays visible for `j` through every later sequence of events that holds
no pointer leave and no click; a later pointer leave starts one new timeout of
300 ms. -/
theorem click_always_wins {α : Type} (p0 p : Page α) (es : List (PointerEvent α))
    (rect : Rect) (W : ℚ) (j : α) (hstart : p0.overlay.timers = [])
    (hrun : deliverAll es p0 = some p) :
    (handleClick rect W j p.overlay).timers = []
      ∧ (handleClick rect W j p.overlay).activeTooltip = some j
      ∧ (handleClick rect W j p.overlay).tooltipPosition = some (tooltipPlacement rect W)
      ∧ (∀ (b : Bool) (es2 : List (PointerEvent α)) (p2 : Page α),
          es2.all PointerEvent.isQuiet = true →
          deliverAll es2 { overlay := handleClick rect W j p.overlay, overCell := b } = some p2 →
            p2.overlay.activeTooltip = some j
              ∧ p2.overlay.tooltipPosition = some (tooltipPlacement rect W)
              ∧ p2.overlay.timers = []
              ∧ isVisible p2.overlay = true)
      ∧ (handleMouseLeave (handleClick rect W j p.overlay)).timers
          = [{ id := p.overlay.nextId, fireAt := p.overlay.now + 300 }] := by
  have hp0 : p0.tracked := ⟨fun _ => hstart, by simp [hstart]⟩
  have hp := deliverAll_tracked es p0 p hp0 hrun
  have hclear := clearTimeout_of_tracked _ _ hp.2
  have htimers : (handleClick rect W j p.overlay).timers = [] := by
    simp [handleClick, hclear]
  refine ⟨htimers, rfl, rfl, ?_, ?_⟩
  · intro b es2 p2 hquiet hrun2
    obtain ⟨h1, h2, h3⟩ := deliverAll_quiet es2 _ p2 hquiet htimers hrun2
    refine ⟨h2, h3, h1, ?_⟩
    simp only [isVisible, h2, h3]
    rfl
  · simp [handleMouseLeave, handleClick, hclear]

/-- Witness for C9: item 1 shown with the pointer over its cell; the pointer leaves,
re-enters a cell 100 ms later, leaves again, and 50 ms later, with that hide pending,
item 2 is clicked. -/
theorem click_always_wins_witness :
    (handleClick { top := 10, left := 100, width := 100 } 1920 2
        { activeTooltip := some 1, tooltipPosition := some { top := 40, left := 210 },
          tooltipTimeout := some 1, timers := [{ id := 1, fireAt := 400 }],
          nextId := 2, now := 150 }).timers = [] :=
  (click_always_wins { overlay := shownOverlay, overCell := true }
    { overlay :=
        { activeTooltip := some 1, tooltipPosition := some { top := 40, left := 210 },
          tooltipTimeout := some 1, timers := [{ id := 1, fireAt := 400 }],
          nextId := 2, now := 150 }
      overCell := false }
    [.leaveCell, .wait 100, .enterCell, .leaveCell, .wait 50]
    { top := 10, left := 100, width := 100 } 1920 2 rfl rfl).1

/-! ## Seasonal cache of `Anidisplay` -/

/-- Reading a key right after writing it returns the written text. -/
theorem getItem_of_setItem (store store1 : LocalStorage) (key value : String)
    (h : setItem store key value = some store1) : getItem store1 key = some value := by
  unfold setItem at h
  split at h
  · exact absurd h (by simp)
  · have h1 := Option.some.inj h
    subst h1
    simp [getItem, List.lookup]

/-- C2: after a mount of `Anidisplay` that misses the cache, receives the list `xs` from
the network and stores it (storage has quota left), a later mount whose date gives the
same key finds the stored text, puts into state a list equal to the payload that was
written (`xs.slice(0, 24)`), and issues no network request.  The platform's JSON
functions enter through two facts: the text written parses back to the list written,
and it is not the empty string. -/
theorem cache_round_trip {α : Type} (codec : JsonCodec α) (year month year2 month2 : Nat)
    (store : LocalStorage) (xs : List α) (s : AniState α)
    (hmiss : getItem store (cacheKey year month) = none)
    (hquota : store.quotaExceeded = false)
    (hparse : codec.parse (codec.stringify (xs.take 24)) = some (.arr (xs.take 24)))
    (htext : codec.stringify (xs.take 24) ≠ "")
    (hkey : cacheKey year2 month2 = cacheKey year month) :
    ∃ o : AniOutcome α,
      anidisplayEffect codec year month store (.data xs) s = .ok o
        ∧ o.state.topAnime = .arr (xs.take 24)
        ∧ getItem o.store (cacheKey year month) = some (codec.stringify (xs.take 24))
        ∧ ∀ (net : Response α) (s1 : AniState α),
            anidisplayEffect codec year2 month2 o.store net s1
              = .ok { state := { s1 with topAnime := .arr (xs.take 24), loading := false }
                      store := o.store
                      fetches := 0 } := by
  obtain ⟨store1, hset⟩ : ∃ store1,
      setItem store (cacheKey year month) (codec.stringify (xs.take 24)) = some store1 := by
    simp [setItem, hquota]
  have hget := getItem_of_setItem store store1 _ _ hset
  refine ⟨{ state := { s with topAnime := .arr (xs.take 24), loading := false }
            store := store1
            fetches := 1 }, ?_, rfl, hget, ?_⟩
  · simp [anidisplayEffect, hmiss, anidisplayFetch, hset]
  · intro net s1
    simp [anidisplayEffect, hkey, hget, htext, hparse]

/-- Witness for C2: the list `[7]` fetched in January 2024 into an empty storage and
read back in March 2024. -/
theorem cache_round_trip_witness :
    ∃ o : AniOutcome Nat,
      anidisplayEffect sampleCodec 2024 0 emptyStore (.data [7]) AniState.initial = .ok o
        ∧ o.state.topAnime = .arr ([7].take 24)
        ∧ getItem o.store (cacheKey 2024 0) = some (sampleCodec.stringify ([7].take 24))
        ∧ ∀ (net : Response Nat) (s1 : AniState Nat),
            anidisplayEffect sampleCodec 2024 2 o.store net s1
              = .ok { state := { s1 with topAnime := .arr ([7].take 24), loading := false }
                      store := o.store
                      fetches := 0 } :=
  cache_round_trip sampleCodec 2024 0 2024 2 emptyStore [7] AniState.initial rfl rfl
    (by simp [sampleCodec]) (by simp [sampleCodec]) rfl

/-- C10, as stated, fails: with the unparseable text `oops` stored under the season's
key, the mount effect ends in the uncaught `SyntaxError` of `JSON.parse`; it neither
treats the entry as a miss nor asks the network. -/
theorem corrupt_cache_raises :
    sampleCodec.parse "oops" = none
      ∧ anidisplayEffect sampleCodec 2024 0
          { items := [(cacheKey 2024 0, "oops")], quotaExceeded := false }
          (.data [7]) AniState.initial
        = .error .syntaxError := by
  constructor
  · simp [sampleCodec]
  · simp [anidisplayEffect, getItem, List.lookup, sampleCodec]

/-- C10, amended: a stored text under the cache key that is present, not empty, and
rejected by `JSON.parse` makes the mount effect end in that parse error, with no state
change and no network request; a stored text that parses, to a list or not, is put in
state as it is, again with no network request; the entry counts as a miss, and the
network is asked, when it is absent or the empty string. -/
theorem corrupt_cache_behaviour {α : Type} (codec : JsonCodec α) (year month : Nat)
    (store : LocalStorage) (net : Response α) (s : AniState α) (cached : Option String)
    (hstored : getItem store (cacheKey year month) = cached) :
    (∀ text, cached = some text → text ≠ "" → codec.parse text = none →
        anidisplayEffect codec year month store net s = .error .syntaxError)
      ∧ (∀ text v, cached = some text → text ≠ "" → codec.parse text = some v →
          anidisplayEffect codec year month store net s
            = .ok { state := { s with topAnime := v, loading := false }
                    store := store
                    fetches := 0 })
      ∧ ((cached = none ∨ cached = some "") →
          anidisplayEffect codec year month store net s
            = .ok (anidisplayFetch codec (cacheKey year month) store net s)
            ∧ (anidisplayFetch codec (cacheKey year month) store net s).fetches = 1) := by
  subst hstored
  refine ⟨?_, ?_, ?_⟩
  · intro text hsome hne hnone
    simp [anidisplayEffect, hsome, hne, hnone]
  · intro text v hsome hne hv
    simp [anidisplayEffect, hsome, hne, hv]
  · intro hmiss
    refine ⟨?_, ?_⟩
    · rcases hmiss with h | h <;> simp [anidisplayEffect, h]
    · unfold anidisplayFetch
      cases net with
      | rejected => rfl
      | notJson => rfl
      | noData => rfl
      | data xs =>
        simp only
        split <;> rfl

/-- Witness for C10 amended: the text `oops` stored for winter 2024 ends the mount
effect in the parse error. -/
theorem corrupt_cache_behaviour_witness :
    anidisplayEffect sampleCodec 2024 0
        { items := [(cacheKey 2024 0, "oops")], quotaExceeded := false }
        (.data [7]) AniState.initial = .error .syntaxError :=
  (corrupt_cache_behaviour sampleCodec 2024 0
    { items := [(cacheKey 2024 0, "oops")], quotaExceeded := false }
    (.data [7]) AniState.initial (some "oops") (by simp [getItem, List.lookup])).1
    "oops" rfl (by decide) (by simp [sampleCodec])

/-! ## Season and cache key -/

/-- The decimal digit characters decode to their digits. -/
theorem digitChar_toNat_sub (k : Nat) (hk : k < 10) : (Nat.digitChar k).toNat - 48 = k := by
  interval_cases k <;> rfl

/-- No decimal digit character is the separator of the key. -/
theorem digitChar_ne_dash (k : Nat) (hk : k < 10) : Nat.digitChar k ≠ '-' := by
  interval_cases k <;> decide

/-- The digit printer only prepends to its accumulator. -/
theorem toDigitsCore_eq_append (fuel n : Nat) (ds : List Char) :
    Nat.toDigitsCore 10 fuel n ds = Nat.toDigitsCore 10 fuel n [] ++ ds := by
  induction fuel generalizing n ds with
  | zero => simp [Nat.toDigitsCore]
  | succ fuel ih =>
    simp only [Nat.toDigitsCore]
    split
    · simp
    · rw [ih (n / 10) (Nat.digitChar (n % 10) :: ds), ih (n / 10) [Nat.digitChar (n % 10)]]
      simp

/-- Decoding after one more digit. -/
theorem decodeDecimal_append_singleton (l : List Char) (c : Char) :
    decodeDecimal (l ++ [c]) = decodeDecimal l * 10 + (c.toNat - 48) := by
  simp [decodeDecimal, List.foldl_append]

/-- Printing a number with enough fuel and decoding the digits gives the number back. -/
theorem decodeDecimal_toDigitsCore (fuel n : Nat) (h : n < fuel) :
    decodeDecimal (Nat.toDigitsCore 10 fuel n []) = n := by
  induction fuel generalizing n with
  | zero => omega
  | succ fuel ih =>
    simp only [Nat.toDigitsCore]
    split
    · rename_i h0
      have hn : n < 10 := by omega
      simp [decodeDecimal, digitChar_toNat_sub _ (Nat.mod_lt n (by decide))]
      omega
    · rename_i h0
      rw [toDigitsCore_eq_append, decodeDecimal_append_singleton,
        ih (n / 10) (by omega), digitChar_toNat_sub _ (Nat.mod_lt n (by decide))]
      omega

/-- The printed digits of a number never contain the separator. -/
theorem toDigitsCore_no_dash (fuel n : Nat) (ds : List Char) (hds : '-' ∉ ds) :
    '-' ∉ Nat.toDigitsCore 10 fuel n ds := by
  induction fuel generalizing n ds with
  | zero => simpa [Nat.toDigitsCore] using hds
  | succ fuel ih =>
    have hd : '-' ∉ Nat.digitChar (n % 10) :: ds := by
      intro hmem
      rcases List.mem_cons.mp hmem with h | h
      · exact digitChar_ne_dash _ (Nat.mod_lt n (by decide)) h.symm
      · exact hds h
    simp only [Nat.toDigitsCore]
    split
    · exact hd
    · exact ih _ _ hd

/-- The characters of a printed year. -/
theorem toString_nat_data (n : Nat) : (toString n).data = Nat.toDigits 10 n := rfl

/-- Two years print alike only if they are equal. -/
theorem toString_nat_injective (a b : Nat) (h : toString a = toString b) : a = b := by
  have hd : Nat.toDigits 10 a = Nat.toDigits 10 b := by
    rw [← toString_nat_data, ← toString_nat_data, h]
  have ha := decodeDecimal_toDigitsCore (a + 1) a (by omega)
  have hb := decodeDecimal_toDigitsCore (b + 1) b (by omega)
  unfold Nat.toDigits at hd
  rw [hd] at ha
  omega

/-- Two texts that agree and whose heads hold no separator agree head by head and tail
by tail. -/
theorem append_dash_split (l1 l2 r1 r2 : List Char) (h1 : '-' ∉ l1) (h2 : '-' ∉ l2)
    (h : l1 ++ '-' :: r1 = l2 ++ '-' :: r2) : l1 = l2 ∧ r1 = r2 := by
  induction l1 generalizing l2 with
  | nil =>
    cases l2 with
    | nil => simpa using h
    | cons c l2 =>
      simp at h
      exact absurd (h.1 ▸ List.mem_cons_self _ _) h2
  | cons c l1 ih =>
    cases l2 with
    | nil =>
      simp at h
      exact absurd (h.1 ▸ List.mem_cons_self _ _) h1
    | cons c2 l2 =>
      simp at h
      obtain ⟨hc, ht⟩ := h
      have hrec := ih l2 (fun hm => h1 (List.mem_cons_of_mem _ hm))
        (fun hm => h2 (List.mem_cons_of_mem _ hm)) ht
      exact ⟨by rw [hc, hrec.1], hrec.2⟩

/-- The season of each month of the year. -/
theorem currentSeason_of_lt (m : Nat) (hm : m < 12) :
    currentSeason m = if m ≤ 2 then "winter" else if m ≤ 5 then "spring"
      else if m ≤ 8 then "summer" else "fall" := by
  interval_cases m <;> rfl

/-- Months with the same season name lie in the same quarter. -/
theorem currentSeason_injective_on_quarter (m m2 : Nat) (hm : m < 12) (hm2 : m2 < 12)
    (h : currentSeason m = currentSeason m2) : m / 3 = m2 / 3 := by
  interval_cases m <;> interval_cases m2 <;> first | rfl | (exact absurd h (by decide))

/-- The characters of a cache key. -/
theorem cacheKey_data (y m : Nat) :
    (cacheKey y m).data
      = "animeData-".data ++ ((toString y).data ++ '-' :: (currentSeason m).data) := by
  simp [cacheKey, String.data_append]

/-- C11: for every month index `m` in 0..11 and every year `y`, the season is the entry
at index `m / 3` of the four season names, an index below 4, so it is never
`undefined` (months 0-2 winter, 3-5 spring, 6-8 summer, 9-11 fall); the cache key is
the text `animeData-<y>-<season>`; and two dates give the same key exactly when they
have the same year and the same `m / 3`. -/
theorem season_key_construction (y y2 m m2 : Nat) (hm : m < 12) (hm2 : m2 < 12) :
    m / 3 < 4
      ∧ seasons[m / 3]? = some (currentSeason m)
      ∧ currentSeason m ≠ "undefined"
      ∧ currentSeason m = (if m ≤ 2 then "winter" else if m ≤ 5 then "spring"
          else if m ≤ 8 then "summer" else "fall")
      ∧ cacheKey y m = "animeData-" ++ toString y ++ "-" ++ currentSeason m
      ∧ (cacheKey y m = cacheKey y2 m2 ↔ y = y2 ∧ m / 3 = m2 / 3) := by
  refine ⟨by omega, ?_, ?_, currentSeason_of_lt m hm, rfl, ?_⟩
  · interval_cases m <;> rfl
  · interval_cases m <;> decide
  · constructor
    · intro hkey
      have hdata := congrArg String.data hkey
      rw [cacheKey_data, cacheKey_data] at hdata
      have htail := List.append_cancel_left hdata
      have hsplit := append_dash_split _ _ _ _
        (by rw [toString_nat_data]; exact toDigitsCore_no_dash _ _ _ (by simp))
        (by rw [toString_nat_data]; exact toDigitsCore_no_dash _ _ _ (by simp)) htail
      refine ⟨toString_nat_injective y y2 (String.ext hsplit.1), ?_⟩
      exact currentSeason_injective_on_quarter m m2 hm hm2 (String.ext hsplit.2)
    · rintro ⟨hy, hq⟩
      subst hy
      have hs : currentSeason m = currentSeason m2 := by
        unfold currentSeason
        rw [hq]
      simp [cacheKey, hs]

/-- Witness for C11: November 2024 and October 2024 share the key of fall 2024. -/
theorem season_key_construction_witness :
    10 / 3 < 4
      ∧ seasons[10 / 3]? = some (currentSeason 10)
      ∧ currentSeason 10 ≠ "undefined"
      ∧ currentSeason 10 = (if 10 ≤ 2 then "winter" else if 10 ≤ 5 then "spring"
          else if 10 ≤ 8 then "summer" else "fall")
      ∧ cacheKey 2024 10 = "animeData-" ++ toString 2024 ++ "-" ++ currentSeason 10
      ∧ (cacheKey 2024 10 = cacheKey 2024 9 ↔ 2024 = 2024 ∧ 10 / 3 = 9 / 3) :=
  season_key_construction 2024 2024 10 9 (by decide) (by decide)

/-! ## Variant B: empty and malformed base lists -/

/-- C12, as stated, fails for the empty list: when the base request of the manga grid
answers with an empty `data` array at mount, `fetchManga` ends with no error, loading
off, the empty list in state, the text of the empty list written to the cache, and no
retry scheduled. -/
theorem fetchManga_empty_list_succeeds :
    (fetchManga sampleEnrichedCodec MangaRender.first emptyListNet MangaState.initial
        emptyStore).state.error = none
      ∧ (fetchManga sampleEnrichedCodec MangaRender.first emptyListNet MangaState.initial
          emptyStore).state.loading = false
      ∧ (fetchManga sampleEnrichedCodec MangaRender.first emptyListNet MangaState.initial
          emptyStore).state.topManga = []
      ∧ (fetchManga sampleEnrichedCodec MangaRender.first emptyListNet MangaState.initial
          emptyStore).timers = []
      ∧ getItem (fetchManga sampleEnrichedCodec MangaRender.first emptyListNet
          MangaState.initial emptyStore).store "updatedMangaList" = some "[]" := by
  refine ⟨?_, ?_, ?_, ?_, ?_⟩ <;> rfl

/-- C12, amended: a base-list response of the manga grid whose `data` is missing or not
a list ends `fetchManga` in the Failed state (error set, loading off, the list in state
and the cache untouched) with the retry decided by the retry policy of the closure; a
response whose `data` is an empty list ends it, storage quota permitting, in Success
with the empty list: error cleared, loading off, the empty list written to the cache,
no retry. -/
theorem fetchManga_missing_vs_empty {α : Type} (codec : JsonCodec (Enriched α))
    (c : MangaRender α) (stats : Nat → StatsResponse) (s : MangaState α)
    (store : LocalStorage) (hquota : store.quotaExceeded = false) :
    ((fetchManga codec c { base := .noData, stats := stats } s store).state.error
          = some .unexpectedFormat
        ∧ (fetchManga codec c { base := .noData, stats := stats } s store).state.loading = false
        ∧ (fetchManga codec c { base := .noData, stats := stats } s store).state.topManga
            = s.topManga
        ∧ (fetchManga codec c { base := .noData, stats := stats } s store).store = store
        ∧ (fetchManga codec c { base := .noData, stats := stats } s store).timers
            = if c.topManga.length = 0 then [specBackoff c.retryCount] else [])
      ∧ ((fetchManga codec c { base := .data [], stats := stats } s store).state.error = none
        ∧ (fetchManga codec c { base := .data [], stats := stats } s store).state.loading = false
        ∧ (fetchManga codec c { base := .data [], stats := stats } s store).state.topManga = []
        ∧ (fetchManga codec c { base := .data [], stats := stats } s store).timers = []
        ∧ getItem (fetchManga codec c { base := .data [], stats := stats } s store).store
            "updatedMangaList" = some (codec.stringify [])) := by
  constructor
  · simp [fetchManga, mangaCatch, specBackoff]
  · have hstats : fetchMangaStats stats (([] : List (Option α)).take 24) = .ok [] := rfl
    obtain ⟨store1, hset⟩ : ∃ store1,
        setItem store "updatedMangaList" (codec.stringify []) = some store1 := by
      simp [setItem, hquota]
    have hget := getItem_of_setItem store store1 _ _ hset
    simp only [fetchManga, hstats, hset]
    exact ⟨trivial, trivial, trivial, trivial, hget⟩

/-- Witness for C12 amended: the mount closure on an empty storage. -/
theorem fetchManga_missing_vs_empty_witness :
    (fetchManga sampleEnrichedCodec MangaRender.first { base := .noData, stats := fun _ => .rejected }
        MangaState.initial emptyStore).timers
      = if (MangaRender.first : MangaRender Nat).topManga.length = 0
          then [specBackoff (MangaRender.first : MangaRender Nat).retryCount] else [] :=
  (fetchManga_missing_vs_empty sampleEnrichedCodec MangaRender.first (fun _ => .rejected)
    MangaState.initial emptyStore rfl).1.2.2.2.2

/-! ## Variant A: reaching Success -/

/-- After any number of failing attempts, a successful attempt leaves its payload in
the slider's state with loading off. -/
theorem runSlider_success_after_failures {α : Type} (rs : List (Response α)) (x : α)
    (xs : List α) (s : SliderState α) (h : ∀ r ∈ rs, r.failsOrEmpty = true) :
    (runSlider (rs ++ [.data (x :: xs)]) s).1.topAnime = x :: xs
      ∧ (runSlider (rs ++ [.data (x :: xs)]) s).1.loading = false := by
  induction rs generalizing s with
  | nil => simp [runSlider, fetchAnimeWithStats]
  | cons r rest ih =>
    have hr := (fetchAnimeWithStats_of_failsOrEmpty r s (h r (List.mem_cons_self _ _))).1
    have hrest := ih (fetchAnimeWithStats r s).1 (fun y hy => h y (List.mem_cons_of_mem _ hy))
    cases rest with
    | nil =>
      simp only [List.cons_append, List.nil_append] at hrest ⊢
      rw [runSlider]
      simp only [hr]
      exact hrest
    | cons r2 rest2 =>
      simp only [List.cons_append] at hrest ⊢
      rw [runSlider]
      simp only [hr]
      exact hrest

/-- C13, as stated, fails: after one rejected attempt followed by a successful one the
slider's state still carries the error of the first attempt, so the view shows the
error indicator instead of the slider; and nothing has been written to the cache. -/
theorem slider_success_keeps_error :
    (sliderMount emptyStore [Response.rejected, Response.data [7]]
        SliderState.initial).1.error = some .networkError
      ∧ sliderView (sliderMount emptyStore [Response.rejected, Response.data [7]]
          SliderState.initial).1 = .errorIndicator
      ∧ getItem (sliderMount emptyStore [Response.rejected, Response.data [7]]
          SliderState.initial).2 (cacheKey 2024 0) = none := by
  refine ⟨?_, ?_, ?_⟩ <;> rfl

/-- C13, amended: after `k ≥ 0` failed attempts of the anime slider followed by an
attempt that succeeds with a non-empty payload, the state holds that payload with
loading off; when the first attempt is the successful one no error is outstanding and
the view renders the slider from the payload; the slider writes nothing to the
cache. -/
theorem slider_reaches_payload {α : Type} (rs : List (Response α)) (x : α) (xs : List α)
    (s : SliderState α) (store : LocalStorage) (h : ∀ r ∈ rs, r.failsOrEmpty = true) :
    (sliderMount store (rs ++ [.data (x :: xs)]) s).1.topAnime = x :: xs
      ∧ (sliderMount store (rs ++ [.data (x :: xs)]) s).1.loading = false
      ∧ (sliderMount store [.data (x :: xs)] SliderState.initial).1.error = none
      ∧ sliderView (sliderMount store [.data (x :: xs)] SliderState.initial).1 = .rankedList
      ∧ (sliderMount store [.data (x :: xs)] SliderState.initial).1.topAnime = x :: xs
      ∧ (sliderMount store (rs ++ [.data (x :: xs)]) s).2 = store := by
  have hrun := runSlider_success_after_failures rs x xs s h
  refine ⟨hrun.1, hrun.2, ?_, ?_, ?_, rfl⟩
  · simp [sliderMount, runSlider, fetchAnimeWithStats, SliderState.initial]
  · simp [sliderMount, runSlider, fetchAnimeWithStats, SliderState.initial, sliderView]
  · simp [sliderMount, runSlider, fetchAnimeWithStats]

/-- Witness for C13 amended: two failing attempts, then the payload `[7, 8]`. -/
theorem slider_reaches_payload_witness :
    (sliderMount emptyStore ([Response.rejected, Response.data []] ++ [.data (7 :: [8])])
        SliderState.initial).1.topAnime = 7 :: [8]
      ∧ (sliderMount emptyStore ([Response.rejected, Response.data []] ++ [.data (7 :: [8])])
          SliderState.initial).1.loading = false
      ∧ (sliderMount emptyStore [.data (7 :: [8])] SliderState.initial).1.error = none
      ∧ sliderView (sliderMount emptyStore [.data (7 :: [8])] SliderState.initial).1
          = .rankedList
      ∧ (sliderMount emptyStore [.data (7 :: [8])] SliderState.initial).1.topAnime = 7 :: [8]
      ∧ (sliderMount emptyStore ([Response.rejected, Response.data []] ++ [.data (7 :: [8])])
          SliderState.initial).2 = emptyStore :=
  slider_reaches_payload [Response.rejected, Response.data []] 7 [8] SliderState.initial
    emptyStore (by decide)

/-! ## Placement and the viewport -/

/-- C14: at the failing input (viewport 800 px wide; click on a row with bounding box
`left = 12`, `width = 776`, inside the viewport) `handleClick` puts the overlay at
`left = -308`, so the overlay, 300 px wide, ends at -8 and is entirely off screen; and
in a viewport 375 px wide, for a trigger at `left = 0` of width 100, it puts the
overlay at `left = 87.5`, so its right edge, at 387.5, is outside the viewport. -/
theorem handleClick_places_overlay_off_screen :
    ((0 : ℚ) ≤ 12 ∧ (12 : ℚ) + 776 ≤ 800)
      ∧ (handleClick { top := 10, left := 12, width := 776 } 800 2 shownOverlay).tooltipPosition
          = some { top := 10, left := -308 }
      ∧ (-308 : ℚ) < 0 ∧ (-308 : ℚ) + 300 < 0
      ∧ ((0 : ℚ) ≤ 0 ∧ (0 : ℚ) + 100 ≤ 375)
      ∧ (handleClick { top := 0, left := 0, width := 100 } 375 2 shownOverlay).tooltipPosition
          = some { top := 0, left := 175 / 2 }
      ∧ ¬ ((175 / 2 : ℚ) + 300 ≤ 375) := by
  refine ⟨by norm_num, ?_, by norm_num, by norm_num, by norm_num, ?_, by norm_num⟩
  · simp only [handleClick, tooltipPlacement, isLastColumn]
    norm_num
  · simp only [handleClick, tooltipPlacement]
    norm_num

/-- C15: for a viewport wider than 768 px and a trigger with `left ≥ 0`, `width ≥ 0`
and `left + width ≤ W - 350`, `handleClick` takes the final branch, and the overlay's
left edge `l` satisfies `10 ≤ l` and `l + 300 ≤ W - 40`: the overlay, 300 px wide, lies
inside the viewport and starts 10 px to the right of the trigger's right edge. -/
theorem right_placement_fits {α : Type} (rect : Rect) (W : ℚ) (anime : α) (s : Overlay α)
    (hW : 768 < W) (hleft : 0 ≤ rect.left) (hwidth : 0 ≤ rect.width)
    (hroom : rect.left + rect.width ≤ W - 350) :
    ∃ p : Position,
      (handleClick rect W anime s).tooltipPosition = some p
        ∧ p.left = rect.left + rect.width + 10
        ∧ p.top = rect.top
        ∧ 10 ≤ p.left
        ∧ p.left + 300 ≤ W - 40
        ∧ 0 ≤ p.left ∧ p.left + 300 ≤ W
        ∧ rect.left + rect.width < p.left := by
  have h1 : ¬ W ≤ 768 := not_le.mpr hW
  have h2 : ¬ rect.left + rect.width > W - 350 := not_lt.mpr hroom
  have hp : tooltipPlacement rect W
      = { top := rect.top, left := rect.left + rect.width + 10 } := by
    simp [tooltipPlacement, isLastColumn, h1, h2]
  refine ⟨tooltipPlacement rect W, rfl, ?_⟩
  rw [hp]
  refine ⟨rfl, rfl, ?_, ?_, ?_, ?_, ?_⟩ <;> simp only <;> linarith

/-- Witness for C15: a trigger at `left = 100` of width 100 in a viewport 1920 px
wide. -/
theorem right_placement_fits_witness :
    ∃ p : Position,
      (handleClick { top := 10, left := 100, width := 100 } 1920 2 shownOverlay).tooltipPosition
          = some p
        ∧ p.left = (100 : ℚ) + 100 + 10
        ∧ p.top = 10
        ∧ 10 ≤ p.left
        ∧ p.left + 300 ≤ 1920 - 40
        ∧ 0 ≤ p.left ∧ p.left + 300 ≤ 1920
        ∧ (100 : ℚ) + 100 < p.left :=
  right_placement_fits { top := 10, left := 100, width := 100 } 1920 2 shownOverlay
    (by norm_num) (by norm_num) (by norm_num) (by norm_num)

end Kaizen
